import Mathlib

/-!
Verification of the FamFlixW voice-replacement pipeline scripts.

This file gives a shallow embedding of the pure/decision parts of
`scripts/voice_replace_pipeline.py` and `scripts/chatterbox_tts.py`:

* Python `float` times are modelled as `ℚ` (no claim here depends on
  IEEE rounding: the constants involved — 0.1, 0.3, 0.5, 15.0, factors
  of 1000 — behave identically in both semantics on the ranges used);
* external processes (ffmpeg, ffprobe, whisper backends, the Chatterbox
  subprocess) are modelled as oracle parameters describing their
  observable outcome;
* Python exceptions (`PipelineError`) are modelled with `Except String`.

Each definition is a direct translation of the correspondingly named
Python function.
-/

/-! ## Python string primitives (`str.strip`, `str.split`, `" ".join`) -/

/-- Whitespace test used by Python's default `str.strip` / `str.split`. -/
def isWs (c : Char) : Bool := c.isWhitespace

/-- Python `str.strip()` on a character list: drop whitespace from both ends. -/
def pyStripL (l : List Char) : List Char :=
  ((l.dropWhile isWs).reverse.dropWhile isWs).reverse

/-- Python `str.strip()`. -/
def pyStrip (s : String) : String := ⟨pyStripL s.data⟩

/-- Helper for `pySplit`: scans the characters, accumulating the current word
(in reverse) in `acc`; words are emitted at whitespace boundaries. -/
def splitWordsAux : List Char → List Char → List (List Char)
  | [], acc => if acc.isEmpty then [] else [acc.reverse]
  | c :: cs, acc =>
    if isWs c then
      if acc.isEmpty then splitWordsAux cs [] else acc.reverse :: splitWordsAux cs []
    else splitWordsAux cs (c :: acc)

/-- Python `str.split()` with no separator: split on runs of whitespace,
discarding empty strings. -/
def pySplit (s : String) : List String := (splitWordsAux s.data []).map fun l => ⟨l⟩

/-- Python `" ".join(...)` on character lists. -/
def joinSpaceL : List (List Char) → List Char
  | [] => []
  | w :: ws => if ws.isEmpty then w else w ++ ' ' :: joinSpaceL ws

/-- Python `" ".join(...)` on strings. -/
def joinSpace (ws : List String) : String := ⟨joinSpaceL (ws.map String.data)⟩

/-- Python `str.isdigit()` (ASCII fragment): nonempty and all digits. -/
def pyIsDigit (s : String) : Bool := !s.isEmpty && s.data.all Char.isDigit

/-- Python `str.lower()` (ASCII fragment), character by character. -/
def pyLower (s : String) : String := ⟨s.data.map Char.toLower⟩

/-! ## Data model (`TranscriptSegment`, `GeneratedSegment`) -/

/-- A single Whisper segment with timing metadata
(`voice_replace_pipeline.TranscriptSegment`). -/
structure TranscriptSegment where
  start : ℚ
  «end» : ℚ
  text : String
deriving DecidableEq

/-- Derived duration property: `max(0.0, self.end - self.start)`. -/
def TranscriptSegment.duration (seg : TranscriptSegment) : ℚ :=
  max 0 (seg.«end» - seg.start)

/-- A synthesized audio clip aligned to a transcript segment
(`voice_replace_pipeline.GeneratedSegment`); the audio file itself is
external, so only its path is kept. -/
structure GeneratedSegment where
  transcript : TranscriptSegment
  audio_path : String
deriving DecidableEq

/-! ## `stretch_segment` -/

/-- Observable behaviour of `stretch_segment`: raise, copy the input file
byte-for-byte (`cp`), or decode and re-encode through `pydub.speedup`. -/
inductive StretchResult
  | error (msg : String)
  | copy
  | reencode (speed : ℚ)
deriving DecidableEq

/-- The effective target duration: `target_duration = max(0.1, target_duration)`. -/
def stretchTarget (target_duration : ℚ) : ℚ := max (1/10) target_duration

/-- The speed ratio `speed = current_duration / target_duration` computed after
flooring the target. -/
def stretchSpeed (current_duration target_duration : ℚ) : ℚ :=
  current_duration / stretchTarget target_duration

/-- `stretch_segment`, as a function of the ffprobe-measured input duration and
the requested target duration. -/
def stretch_segment (current_duration target_duration : ℚ) : StretchResult :=
  if current_duration ≤ 0 then
    .error "Segment has zero/negative duration; cannot stretch."
  else if stretchSpeed current_duration target_duration = 1 then .copy
  else .reencode (stretchSpeed current_duration target_duration)

/-! ## `assemble_segments` -/

/-- `assemble_segments`: sort by transcript start (Python `sorted` is a stable
ascending mergesort), raise on an empty input, and size the silent base track
to `int(math.ceil(ordered[-1].transcript.end * 1000)) + 1000` milliseconds.
`pydub` overlays never extend the base track, so the exported track has
exactly the returned length. -/
def assemble_segments (segments : List GeneratedSegment) : Except String ℤ :=
  let ordered := segments.mergeSort fun a b => a.transcript.start ≤ b.transcript.start
  match ordered.getLast? with
  | none => .error "No generated segments provided for assembly."
  | some last => .ok (⌈last.transcript.«end» * 1000⌉ + 1000)

/-! ## `split_long_segment` (local to `generate_segments`) -/

/-- The `while idx < len(words)` loop of `split_long_segment`: emit a chunk of
`k` words with the clamped time window, then continue on the remaining words.
The fuel argument only serves totality: the caller passes `words.length`,
which suffices because each iteration consumes `k ≥ 1` words (for `k = 0`
the Python loop would not terminate; the caller always passes `k ≥ 1`). -/
def splitLoop (segEnd maxDur : ℚ) (k : ℕ) : ℕ → ℚ → List String → List TranscriptSegment
  | 0, _, _ => []
  | _ + 1, _, [] => []
  | fuel + 1, start, w :: ws =>
    let e := min (start + maxDur) segEnd
    { start := start, «end» := e, text := pyStrip (joinSpace ((w :: ws).take k)) } ::
      splitLoop segEnd maxDur k fuel e ((w :: ws).drop k)

/-- `split_long_segment`: segments no longer than `max_duration` (or with no
words) pass through unchanged; longer ones are chunked by a words-per-second
estimate.  `int(...)` on the positive float is truncation, i.e. `⌊·⌋`. -/
def split_long_segment (segment : TranscriptSegment) (max_duration : ℚ := 15) :
    List TranscriptSegment :=
  if segment.duration ≤ max_duration then [segment]
  else
    let words := pySplit segment.text
    if words.isEmpty then [segment]
    else
      let words_per_sec := max ((words.length : ℚ) / max segment.duration (1/1000000)) 1
      let chunk_word_count := max (Int.toNat ⌊words_per_sec * max_duration⌋) 1
      splitLoop segment.«end» max_duration chunk_word_count words.length segment.start words

/-! ## Transcript persistence (`write_transcript` / `load_transcript_from_json`) -/

/-- One JSON object of the persisted transcript list: `{"start": float,
"end": float, "text": str}`.  `json.dumps`/`json.loads` round-trip these
fields losslessly, so the file is modelled by the list of records itself. -/
structure RawSegment where
  start : ℚ
  «end» : ℚ
  text : String
deriving DecidableEq

/-- `write_transcript`: serialise each segment's three fields. -/
def write_transcript (segments : List TranscriptSegment) : List RawSegment :=
  segments.map fun seg => ⟨seg.start, seg.«end», seg.text⟩

/-- `load_transcript_from_json`, given an already-parsed JSON list: each entry
raises `PipelineError` when `end < start`, is kept with stripped text when the
stripped text is nonempty, and is silently skipped otherwise.  (The
trailing monotonicity pass only logs a warning and never alters the result.) -/
def load_transcript_from_json : List RawSegment → Except String (List TranscriptSegment)
  | [] => .ok []
  | item :: rest =>
    if item.«end» < item.start then .error "Invalid transcript entry"
    else
      let text := pyStrip item.text
      match load_transcript_from_json rest with
      | .error e => .error e
      | .ok segs =>
        .ok (if text.isEmpty then segs
             else { start := item.start, «end» := item.«end», text := text } :: segs)

/-! ## `chatterbox_tts` subprocess invocation with timeout retry -/

/-- Arguments of `chatterbox_tts` together with the environment variables it
reads (`CHATTERBOX_STEPS`, `CHATTERBOX_ATTN_IMPL`, `CHATTERBOX_MAX_NEW_TOKENS`,
`CHATTERBOX_TIMEOUT`). -/
structure ChatterboxArgs where
  text : String
  output_path : String
  audio_prompt : String
  device : String := "cpu"
  multilingual : Bool := false
  language : Option String := none
  exaggeration : Option ℚ := none
  cfg_weight : Option ℚ := none
  allow_fallback : Bool := false
  timeout_override : Option ℕ := none
  verbose : Bool := false
  steps_env : Option String := none
  attn_impl_env : Option String := none
  max_new_tokens_env : Option String := none
  chatterbox_timeout_env : ℕ := 120

/-- The fixed leading part of the argv list: interpreter, script and the four
mandatory options. -/
def cmdHead (a : ChatterboxArgs) : List String :=
  ["python3", "chatterbox_tts.py", "--text", a.text, "--out", a.output_path,
    "--speaker-wav", a.audio_prompt, "--device", a.device]

/-- The `--steps` pair appended when `CHATTERBOX_STEPS` is a digit string. -/
def stepsOpt (a : ChatterboxArgs) : List String :=
  match a.steps_env with
  | some s => if pyIsDigit s then ["--steps", s] else []
  | none => []

/-- The `--attn-impl` pair appended when `CHATTERBOX_ATTN_IMPL` is nonempty. -/
def attnOpt (a : ChatterboxArgs) : List String :=
  match a.attn_impl_env with
  | some s => if s.isEmpty then [] else ["--attn-impl", s]
  | none => []

/-- The `--max-new-tokens` pair appended when `CHATTERBOX_MAX_NEW_TOKENS` is a
digit string. -/
def tokensOpt (a : ChatterboxArgs) : List String :=
  match a.max_new_tokens_env with
  | some s => if pyIsDigit s then ["--max-new-tokens", s] else []
  | none => []

/-- The remaining optional argv entries, appended after the token option in
the source's order. -/
def tailOpt (a : ChatterboxArgs) : List String :=
  (if a.multilingual then ["--multilingual"] else [])
  ++ (match a.language with
      | some l => if l.isEmpty then [] else ["--language", l]
      | none => [])
  ++ (match a.exaggeration with
      | some e => ["--exaggeration", toString e]
      | none => [])
  ++ (match a.cfg_weight with
      | some c => ["--cfg-weight", toString c]
      | none => [])
  ++ (if a.verbose then ["--verbose"] else [])

/-- The argv list built by `chatterbox_tts`, in the source's append order (the
interpreter path is abstracted as its default `python3`; numeric options are
rendered with `toString`). -/
def chatterboxCmd (a : ChatterboxArgs) : List String :=
  cmdHead a ++ stepsOpt a ++ attnOpt a ++ tokensOpt a ++ tailOpt a

/-- `timeout_sec = int(timeout_override or os.environ.get("CHATTERBOX_TIMEOUT",
"120"))`; note that Python's `or` treats an override of 0 as absent. -/
def chatterboxTimeout (a : ChatterboxArgs) : ℕ :=
  match a.timeout_override with
  | some t => if t = 0 then a.chatterbox_timeout_env else t
  | none => a.chatterbox_timeout_env

/-- `text_len = max(1, len(text.strip()))`. -/
def tts_text_len (text : String) : ℕ := max 1 (pyStrip text).length

/-- `fallback_steps = max(6, min(20, int(0.3 * text_len)))` (truncation of a
positive value is `⌊·⌋`). -/
def fallback_steps (text : String) : ℕ :=
  max 6 (min 20 (Int.toNat ⌊(3 : ℚ)/10 * (tts_text_len text : ℚ)⌋))

/-- `fallback_tokens = max(16, min(64, int(0.5 * text_len)))`. -/
def fallback_tokens (text : String) : ℕ :=
  max 16 (min 64 (Int.toNat ⌊(1 : ℚ)/2 * (tts_text_len text : ℚ)⌋))

/-- The `--steps` / `--max-new-tokens` rewrite performed on the retried
command: if the flag occurs in the list, overwrite the element after its first
occurrence (doing nothing when the flag is the final element); otherwise
append the flag and value. -/
def applyParam (cmd : List String) (flag val : String) : List String :=
  match cmd.findIdx? (fun x => x == flag) with
  | some i => if i + 1 < cmd.length then cmd.set (i + 1) val else cmd
  | none => cmd ++ [flag, val]

/-- Reader counterpart of `applyParam`: the element following the first
occurrence of `flag`, i.e. the value the CLI would associate with `flag`. -/
def paramValue (cmd : List String) (flag : String) : Option String :=
  match cmd.findIdx? (fun x => x == flag) with
  | some i => cmd.get? (i + 1)
  | none => none

/-- The reduced-effort command used for the single retry after a timeout. -/
def retryCmd (a : ChatterboxArgs) : List String :=
  applyParam (applyParam (chatterboxCmd a) "--steps" (toString (fallback_steps a.text)))
    "--max-new-tokens" (toString (fallback_tokens a.text))

/-- The JSON metadata the wrapper parses from the CLI's final stdout line
(only the `note == "fallback_beep_audio"` marker is consulted). -/
structure TtsMeta where
  note_fallback_beep : Bool
deriving DecidableEq

/-- Outcome of one `subprocess.run` call: wall-clock timeout, or completion
with an exit code and (when the last stdout line parses as JSON) metadata. -/
inductive RunOutcome
  | timeout
  | done (exitcode : ℤ) (jsonMeta : Option TtsMeta)
deriving DecidableEq

/-- Post-processing after a completed subprocess: non-zero exit raises; a
parsed `fallback_beep_audio` note raises unless fallback is allowed; a
non-JSON stdout line is silently tolerated. -/
def finishTts (allow_fallback : Bool) (exitcode : ℤ) (meta : Option TtsMeta) :
    Except String Unit :=
  if exitcode ≠ 0 then .error "Chatterbox CLI failed"
  else
    match meta with
    | some m =>
      if m.note_fallback_beep && !allow_fallback then
        .error "Chatterbox fell back to beep audio"
      else .ok ()
    | none => .ok ()

/-- Trace of one `chatterbox_tts` call: every command actually passed to
`subprocess.run`, in order, and the final outcome. -/
structure TtsTrace where
  attempts : List (List String)
  outcome : Except String Unit

/-- `chatterbox_tts`: the subprocess oracle `run` maps a command and timeout
to the observed outcome.  A first-attempt timeout triggers exactly one retry
with `retryCmd` under timeout `max(90, timeout_sec // 2)`; a second timeout
raises `PipelineError`. -/
def chatterbox_tts (a : ChatterboxArgs) (run : List String → ℕ → RunOutcome) : TtsTrace :=
  let cmd := chatterboxCmd a
  let timeout_sec := chatterboxTimeout a
  match run cmd timeout_sec with
  | .done rc meta => ⟨[cmd], finishTts a.allow_fallback rc meta⟩
  | .timeout =>
    match run (retryCmd a) (max 90 (timeout_sec / 2)) with
    | .done rc meta => ⟨[cmd, retryCmd a], finishTts a.allow_fallback rc meta⟩
    | .timeout =>
      ⟨[cmd, retryCmd a],
        .error ("Chatterbox CLI timed out: initial=" ++ toString timeout_sec
          ++ "s, fallback=" ++ toString (max 90 (timeout_sec / 2)) ++ "s")⟩

/-- What a segment's audio ended up being in `generate_segments`. -/
inductive SegmentAudio
  | synthesized
  | tone
deriving DecidableEq

/-- The per-segment `try/except PipelineError` of `generate_segments`: on a
synthesis failure, substitute a beep tone when `allow_fallback` is set
(re-raising if even the beep fails), otherwise re-raise. -/
def segmentSynthesis (allow_fallback : Bool) (tts : Except String Unit)
    (beep : Except String Unit) : Except String SegmentAudio :=
  match tts with
  | .ok _ => .ok .synthesized
  | .error e =>
    if allow_fallback then
      match beep with
      | .ok _ => .ok .tone
      | .error be => .error ("Beep fallback failed: " ++ be ++ "; original: " ++ e)
    else .error e

/-! ## `transcribe_audio` backend dispatch -/

/-- Outcome of one transcription backend call: segments, or a raised
`PipelineError`. -/
inductive TranscribeResult
  | ok (segments : List TranscriptSegment)
  | err (msg : String)
deriving DecidableEq

/-- The `backend == "auto"` branch of `transcribe_audio`: try faster-whisper;
on `PipelineError` silently fall through to whisper.cpp (only when a
whisper.cpp model is configured via CLI or environment, its `PipelineError`
also swallowed), and finally to openai-whisper, whose outcome is returned
to the caller as-is. -/
def transcribe_auto (faster_whisper : TranscribeResult) (cpp_model : Option String)
    (whisper_cpp : TranscribeResult) (openai_whisper : TranscribeResult) :
    TranscribeResult :=
  match faster_whisper with
  | .ok s => .ok s
  | .err _ =>
    match cpp_model with
    | some _ =>
      (match whisper_cpp with
       | .ok s => .ok s
       | .err _ => openai_whisper)
    | none => openai_whisper

/-- `transcribe_audio`: dispatch on the (lower-cased, defaulted) backend name.
The three backend calls are oracle parameters; `cpp_model` is the merged
`--whisper-cpp-model` / `WHISPER_CPP_MODEL` setting. -/
def transcribe_audio (transcriber : String) (faster_whisper : TranscribeResult)
    (openai_whisper : TranscribeResult) (cpp_model : Option String)
    (whisper_cpp : TranscribeResult) : TranscribeResult :=
  let backend := pyLower (if transcriber.isEmpty then "auto" else transcriber)
  if backend = "faster-whisper" ∨ backend = "faster_whisper" then faster_whisper
  else if backend = "whisper" then openai_whisper
  else if backend = "whisper-cpp" ∨ backend = "whisper_cpp" then
    match cpp_model with
    | some _ => whisper_cpp
    | none => .err "WHISPER_CPP_MODEL (or --whisper-cpp-model) is required for whisper-cpp backend"
  else if backend = "auto" then
    transcribe_auto faster_whisper cpp_model whisper_cpp openai_whisper
  else .err "Unsupported transcriber"

/-! ## `chatterbox_tts.py` CLI exit codes -/

/-- The facts about the external world that determine which structured exit
path `chatterbox_tts.py`'s `main` takes: whether the heavy imports succeed,
whether a speaker WAV was passed and exists, whether some `generate()`
attempt produced audio, and whether persisting the audio succeeded. -/
structure CliEnv where
  deps_ok : Bool
  speaker_wav_provided : Bool
  speaker_wav_exists : Bool
  generate_ok : Bool
  persist_ok : Bool
deriving DecidableEq

/-- The exit code of `chatterbox_tts.py`'s `main`, paired with the JSON error
object it prints to stdout on the non-zero paths (`none` on success, where a
result object is printed instead). -/
def chatterboxCliMain (e : CliEnv) : ℕ × Option String :=
  if !e.deps_ok then (2, some "Missing dependencies")
  else if e.speaker_wav_provided && !e.speaker_wav_exists then
    (3, some "Speaker WAV not found")
  else if !e.generate_ok then (4, some "Chatterbox generate() failed")
  else if !e.persist_ok then (5, some "Failed to persist audio")
  else (0, none)

/-! ## Theorems -/

/-- C9: for every TranscriptSegment, the derived duration equals
`max(0, end - start)`; consequently it is nonnegative, and equals
`end - start` whenever `start ≤ end`. -/
theorem transcript_duration_eq (seg : TranscriptSegment) :
    seg.duration = max 0 (seg.«end» - seg.start) ∧ 0 ≤ seg.duration ∧
      (seg.start ≤ seg.«end» → seg.duration = seg.«end» - seg.start) := by
  refine ⟨rfl, le_max_left _ _, fun h => ?_⟩
  have : (0 : ℚ) ≤ seg.«end» - seg.start := by linarith
  simpa [TranscriptSegment.duration] using max_eq_right this

/-- Concrete instance of `transcript_duration_eq` at `start = 1`, `end = 3`. -/
theorem transcript_duration_eq_witness :
    (⟨1, 3, "hi"⟩ : TranscriptSegment).duration = max 0 ((3 : ℚ) - 1) ∧
      (0 : ℚ) ≤ (⟨1, 3, "hi"⟩ : TranscriptSegment).duration ∧
      ((1 : ℚ) ≤ 3 → (⟨1, 3, "hi"⟩ : TranscriptSegment).duration = 3 - 1) :=
  transcript_duration_eq ⟨1, 3, "hi"⟩

/-- Helper: in a `Pairwise r` list with `r` reflexive, every element is
related to the last element. -/
theorem pairwise_rel_getLast {α : Type} {r : α → α → Prop} (hrefl : ∀ a, r a a) :
    ∀ (l : List α) (h : l ≠ []), l.Pairwise r → ∀ x : α, x ∈ l → r x (l.getLast h)
  | [a], _, _hp, x, hx => by
    simp at hx
    subst hx
    exact hrefl _
  | a :: b :: t, _, hp, x, hx => by
    rw [List.getLast_cons (by simp)]
    rcases List.mem_cons.mp hx with rfl | hx
    · exact (List.pairwise_cons.mp hp).1 _ (List.getLast_mem _)
    · exact pairwise_rel_getLast hrefl (b :: t) (by simp) (List.pairwise_cons.mp hp).2 x hx

/-- C3 counterexample: a clip of duration 0.05 s stretched to the equal target
0.05 s is *not* copied — the target is floored to 0.1 s first, so the clip is
re-encoded at speed 0.5. -/
theorem stretch_segment_copy_counterexample :
    (0 : ℚ) < 1/20 ∧ (1/20 : ℚ) = 1/20 ∧
      stretch_segment (1/20) (1/20) = StretchResult.reencode (1/2) ∧
      stretch_segment (1/20) (1/20) ≠ StretchResult.copy := by
  have ht : stretchTarget (1/20) = 1/10 := by
    rw [stretchTarget, max_eq_left (by norm_num)]
  have hs : stretchSpeed (1/20) (1/20) = 1/2 := by
    rw [stretchSpeed, ht]
    norm_num
  have he : stretch_segment (1/20) (1/20) = StretchResult.reencode (1/2) := by
    rw [stretch_segment, if_neg (by norm_num), if_neg (by rw [hs]; norm_num), hs]
  exact ⟨by norm_num, rfl, he, by rw [he]; simp⟩

/-- C3 (amended): for a positive measured duration, if the current duration
equals the target duration *and the target is at least the 0.1 s floor*, then
`stretch_segment` is a no-op byte-identical copy (no decode/re-encode). -/
theorem stretch_segment_copy (current target : ℚ) (hpos : 0 < current)
    (hmin : 1/10 ≤ target) (heq : current = target) :
    stretch_segment current target = StretchResult.copy := by
  have ht : stretchTarget target = target := max_eq_right hmin
  have htpos : 0 < target := heq ▸ hpos
  have hs : stretchSpeed current target = 1 := by
    rw [stretchSpeed, ht, heq, div_self (ne_of_gt htpos)]
  rw [stretch_segment, if_neg (not_le.mpr hpos), if_pos hs]

/-- Concrete instance of `stretch_segment_copy` at current = target = 1 s. -/
theorem stretch_segment_copy_witness :
    (0 : ℚ) < 1 ∧ (1/10 : ℚ) ≤ 1 ∧ stretch_segment 1 1 = StretchResult.copy :=
  ⟨by norm_num, by norm_num, stretch_segment_copy 1 1 (by norm_num) (by norm_num) rfl⟩

/-- C8: with a positive measured input duration, the effective target is never
zero (so `current / target` never divides by zero), the computed speed is
positive, and any target at or below the minimum — in particular zero — is
floored to exactly 0.1 s. -/
theorem stretch_segment_no_div_zero (current target : ℚ) (hpos : 0 < current) :
    stretchTarget target ≠ 0 ∧ 0 < stretchTarget target ∧
      0 < stretchSpeed current target ∧
      (target ≤ 1/10 → stretchTarget target = 1/10) ∧
      (target = 0 → stretchTarget target = 1/10) := by
  have h1 : (0 : ℚ) < 1/10 := by norm_num
  have h2 : 0 < stretchTarget target := lt_of_lt_of_le h1 (le_max_left _ _)
  refine ⟨ne_of_gt h2, h2, div_pos hpos h2, fun h => max_eq_left h, fun h => ?_⟩
  rw [h, stretchTarget, max_eq_left (by norm_num)]

/-- Concrete instance of `stretch_segment_no_div_zero` at current = 1 s,
target = 0 s. -/
theorem stretch_segment_no_div_zero_witness :
    (0 : ℚ) < 1 ∧ stretchTarget 0 ≠ 0 ∧ 0 < stretchTarget 0 ∧
      0 < stretchSpeed 1 0 ∧ stretchTarget 0 = 1/10 :=
  have h := stretch_segment_no_div_zero 1 0 (by norm_num)
  ⟨by norm_num, h.1, h.2.1, h.2.2.1, h.2.2.2.2 rfl⟩

/-- C5: `assemble_segments` called with zero segments raises `PipelineError`
before constructing any audio track. -/
theorem assemble_segments_empty :
    assemble_segments [] = .error "No generated segments provided for assembly." := by
  simp [assemble_segments]

/-- C4: for a nonempty collection, `assemble_segments` succeeds and the silent
base track's length is `⌈end·1000⌉ + 1000` ms, where `end` is the transcript
end of a segment of maximal start time (the last one after sorting by start);
the 1000 ms summand is the fixed 1 s tail padding. -/
theorem assemble_segments_base_length (segs : List GeneratedSegment) (h : segs ≠ []) :
    ∃ t ∈ segs, (∀ s ∈ segs, s.transcript.start ≤ t.transcript.start) ∧
      assemble_segments segs = .ok (⌈t.transcript.«end» * 1000⌉ + 1000) := by
  have hperm := List.mergeSort_perm segs
    (fun a b : GeneratedSegment => a.transcript.start ≤ b.transcript.start)
  have hne : segs.mergeSort
      (fun a b : GeneratedSegment => a.transcript.start ≤ b.transcript.start) ≠ [] := by
    intro hnil
    rw [hnil] at hperm
    exact h (List.Perm.eq_nil hperm.symm)
  have hpairb := @List.sorted_mergeSort GeneratedSegment
    (fun a b : GeneratedSegment => decide (a.transcript.start ≤ b.transcript.start))
    (fun a b c h₁ h₂ => by
      simp only [decide_eq_true_eq] at *
      exact le_trans h₁ h₂)
    (fun a b => by
      simp only [Bool.or_eq_true, decide_eq_true_eq]
      exact le_total _ _) segs
  have hpair : (segs.mergeSort
      (fun a b : GeneratedSegment => a.transcript.start ≤ b.transcript.start)).Pairwise
      (fun a b : GeneratedSegment => a.transcript.start ≤ b.transcript.start) := by
    refine List.Pairwise.imp ?_ hpairb
    intro a b hab
    exact of_decide_eq_true hab
  refine ⟨(segs.mergeSort _).getLast hne, ?_, ?_, ?_⟩
  · exact hperm.subset (List.getLast_mem hne)
  · intro s hs
    exact pairwise_rel_getLast
      (r := fun a b : GeneratedSegment => a.transcript.start ≤ b.transcript.start)
      (fun a => le_refl _) _ hne hpair s (hperm.mem_iff.mpr hs)
  · simp only [assemble_segments]
    rw [List.getLast?_eq_getLast _ hne]

/-- Concrete instance of `assemble_segments_base_length`: one segment of
duration 1 s starting at 2 s yields a base track of 4000 ms, which is at
least 3 s plus the 1 s tail padding. -/
theorem assemble_segments_base_length_witness :
    ([⟨⟨2, 3, "x"⟩, "p"⟩] : List GeneratedSegment) ≠ [] ∧
      (∃ t ∈ ([⟨⟨2, 3, "x"⟩, "p"⟩] : List GeneratedSegment),
        (∀ s ∈ ([⟨⟨2, 3, "x"⟩, "p"⟩] : List GeneratedSegment),
          s.transcript.start ≤ t.transcript.start) ∧
        assemble_segments [⟨⟨2, 3, "x"⟩, "p"⟩] = .ok (⌈t.transcript.«end» * 1000⌉ + 1000)) ∧
      assemble_segments [⟨⟨2, 3, "x"⟩, "p"⟩] = .ok 4000 ∧
      (3 * 1000 + 1000 : ℤ) ≤ 4000 :=
  ⟨by simp, assemble_segments_base_length _ (by simp), by simp [assemble_segments]; norm_num,
    by norm_num⟩

/-- C6: with the "auto" backend, faster-whisper is tried first and its success
is returned; a faster-whisper `PipelineError` is swallowed and whisper.cpp is
tried exactly when a whisper.cpp model is configured (its failure also
swallowed); otherwise/afterwards openai-whisper's outcome is returned as-is,
so an error reaching the caller is always the final backend's error. -/
theorem transcribe_audio_auto_fallback (fw ow cpp : TranscribeResult)
    (cpp_model : Option String) :
    (∀ s, fw = .ok s → transcribe_audio "auto" fw ow cpp_model cpp = .ok s) ∧
    (∀ e s, fw = .err e → cpp_model.isSome → cpp = .ok s →
      transcribe_audio "auto" fw ow cpp_model cpp = .ok s) ∧
    (∀ e eC, fw = .err e → cpp_model.isSome → cpp = .err eC →
      transcribe_audio "auto" fw ow cpp_model cpp = ow) ∧
    (∀ e, fw = .err e → cpp_model = none →
      transcribe_audio "auto" fw ow cpp_model cpp = ow) ∧
    (∀ msg, transcribe_audio "auto" fw ow cpp_model cpp = .err msg → ow = .err msg) := by
  have hdef : transcribe_audio "auto" fw ow cpp_model cpp =
      transcribe_auto fw cpp_model cpp ow := rfl
  refine ⟨?_, ?_, ?_, ?_, ?_⟩
  · intro s hfw
    rw [hdef, hfw]
    rfl
  · intro e s hfw hm hc
    obtain ⟨m, rfl⟩ := Option.isSome_iff_exists.mp hm
    rw [hdef, hfw, hc]
    rfl
  · intro e eC hfw hm hc
    obtain ⟨m, rfl⟩ := Option.isSome_iff_exists.mp hm
    rw [hdef, hfw, hc]
    rfl
  · intro e hfw hm
    rw [hdef, hfw, hm]
    rfl
  · intro msg h
    rw [hdef] at h
    cases fw with
    | ok s => simp [transcribe_auto] at h
    | err e =>
      cases cpp_model with
      | none => exact h
      | some m =>
        cases cpp with
        | ok s => simp [transcribe_auto] at h
        | err eC => exact h

/-- Concrete instance of `transcribe_audio_auto_fallback`: faster-whisper and
the configured whisper.cpp both fail, so openai-whisper's result is returned. -/
theorem transcribe_audio_auto_fallback_witness :
    transcribe_audio "auto" (.err "fw down") (.ok [⟨0, 1, "hi"⟩]) (some "ggml.bin")
        (.err "cpp down") = .ok [⟨0, 1, "hi"⟩] :=
  (transcribe_audio_auto_fallback (.err "fw down") (.ok [⟨0, 1, "hi"⟩]) (.err "cpp down")
    (some "ggml.bin")).2.2.1 "fw down" "cpp down" rfl rfl rfl

/-- C7: the CLI's structured exit paths carry five pairwise-distinct codes —
0 success, 2 missing dependency, 3 missing speaker WAV, 4 `generate()` failed
on every attempt, 5 audio persistence failed — and every non-zero path prints
a JSON error object on stdout. -/
theorem chatterbox_cli_exit_codes (e : CliEnv) :
    ((chatterboxCliMain e).1 = 0 ∨ (chatterboxCliMain e).1 = 2 ∨
      (chatterboxCliMain e).1 = 3 ∨ (chatterboxCliMain e).1 = 4 ∨
      (chatterboxCliMain e).1 = 5) ∧
    ((chatterboxCliMain e).1 = 0 ↔ e.deps_ok ∧
      (e.speaker_wav_provided → e.speaker_wav_exists) ∧ e.generate_ok ∧ e.persist_ok) ∧
    ((chatterboxCliMain e).1 = 2 ↔ ¬e.deps_ok) ∧
    ((chatterboxCliMain e).1 = 3 ↔ e.deps_ok ∧ e.speaker_wav_provided ∧
      ¬e.speaker_wav_exists) ∧
    ((chatterboxCliMain e).1 = 4 ↔ e.deps_ok ∧
      (e.speaker_wav_provided → e.speaker_wav_exists) ∧ ¬e.generate_ok) ∧
    ((chatterboxCliMain e).1 = 5 ↔ e.deps_ok ∧
      (e.speaker_wav_provided → e.speaker_wav_exists) ∧ e.generate_ok ∧ ¬e.persist_ok) ∧
    ((chatterboxCliMain e).1 ≠ 0 → ((chatterboxCliMain e).2).isSome) := by
  obtain ⟨d, sp, se, g, p⟩ := e
  cases d <;> cases sp <;> cases se <;> cases g <;> cases p <;>
    simp [chatterboxCliMain]

/-- Concrete instance of `chatterbox_cli_exit_codes`: a missing dependency
exits with code 2 and a JSON error on stdout. -/
theorem chatterbox_cli_exit_codes_witness :
    (chatterboxCliMain ⟨false, true, true, true, true⟩).1 = 2 ∧
      ((chatterboxCliMain ⟨false, true, true, true, true⟩).2).isSome := by
  have h := chatterbox_cli_exit_codes ⟨false, true, true, true, true⟩
  have h2 : (chatterboxCliMain ⟨false, true, true, true, true⟩).1 = 2 :=
    h.2.2.1.mpr (by simp)
  exact ⟨h2, h.2.2.2.2.2.2 (by rw [h2]; decide)⟩

/-- Helper: loading what `write_transcript` wrote keeps exactly the segments
with nonempty stripped text, with their text stripped. -/
theorem load_write_transcript :
    ∀ (segs : List TranscriptSegment), (∀ s ∈ segs, s.start ≤ s.«end») →
      load_transcript_from_json (write_transcript segs) =
        .ok (segs.filterMap fun s =>
          if pyStrip s.text = "" then none
          else some { start := s.start, «end» := s.«end», text := pyStrip s.text })
  | [], _ => rfl
  | s :: rest, h => by
    have hs : ¬ s.«end» < s.start := not_lt.mpr (h s (by simp))
    have ih := load_write_transcript rest (fun x hx => h x (by simp [hx]))
    simp only [write_transcript, List.map_cons] at ih ⊢
    rw [load_transcript_from_json, if_neg hs, ih, List.filterMap_cons]
    by_cases he : pyStrip s.text = ""
    · simp [he, String.isEmpty_iff]
    · simp only [he, if_neg, ite_false]
      rw [if_neg (by simpa [String.isEmpty_iff] using he)]

/-- Helper: the filter in `load_write_transcript` is the identity when every
text is nonempty and already stripped. -/
theorem filterMap_strip_id :
    ∀ (segs : List TranscriptSegment),
      (∀ s ∈ segs, pyStrip s.text = s.text ∧ s.text ≠ "") →
      (segs.filterMap fun s =>
        if pyStrip s.text = "" then none
        else some { start := s.start, «end» := s.«end», text := pyStrip s.text }) = segs
  | [], _ => rfl
  | s :: rest, h => by
    have h1 := (h s (by simp)).1
    have h2 := (h s (by simp)).2
    have ih := filterMap_strip_id rest (fun x hx => h x (by simp [hx]))
    rw [List.filterMap_cons, if_neg (by rw [h1]; exact h2)]
    show ({ start := s.start, «end» := s.«end», text := pyStrip s.text } :
      TranscriptSegment) :: _ = s :: rest
    rw [h1, ih]

/-- C10: writing a transcript and reloading it drops exactly the segments
whose text strips to empty (keeping the others with stripped text, silently,
never as an error); in particular, when every segment has `start ≤ end` and
nonempty, strip-invariant text, the round-trip is the identity. -/
theorem write_load_roundtrip (segs : List TranscriptSegment)
    (h : ∀ s ∈ segs, s.start ≤ s.«end») :
    load_transcript_from_json (write_transcript segs) =
      .ok (segs.filterMap fun s =>
        if pyStrip s.text = "" then none
        else some { start := s.start, «end» := s.«end», text := pyStrip s.text }) ∧
    ((∀ s ∈ segs, pyStrip s.text = s.text ∧ s.text ≠ "") →
      load_transcript_from_json (write_transcript segs) = .ok segs) := by
  refine ⟨load_write_transcript segs h, fun hall => ?_⟩
  rw [load_write_transcript segs h, filterMap_strip_id segs hall]

/-- Concrete instance of `write_load_roundtrip` on a two-segment transcript:
the round-trip is the identity. -/
theorem write_load_roundtrip_witness :
    (∀ s ∈ ([⟨0, 1, "hi"⟩, ⟨1, 2, "there"⟩] : List TranscriptSegment), s.start ≤ s.«end») ∧
      load_transcript_from_json (write_transcript [⟨0, 1, "hi"⟩, ⟨1, 2, "there"⟩]) =
        .ok [⟨0, 1, "hi"⟩, ⟨1, 2, "there"⟩] :=
  ⟨by decide, (write_load_roundtrip [⟨0, 1, "hi"⟩, ⟨1, 2, "there"⟩] (by decide)).2 (by decide)⟩

/-- Helper: every word produced by `splitWordsAux` (given a whitespace-free
accumulator) is nonempty and whitespace-free. -/
theorem splitWordsAux_words (cs : List Char) :
    ∀ (acc : List Char), (∀ c ∈ acc, isWs c = false) →
      ∀ w ∈ splitWordsAux cs acc, w ≠ [] ∧ ∀ c ∈ w, isWs c = false := by
  induction cs with
  | nil =>
    intro acc hacc w hw
    rw [splitWordsAux] at hw
    split at hw
    · simp at hw
    · next h =>
      simp only [List.mem_singleton] at hw
      subst hw
      refine ⟨?_, fun c hc => hacc c (List.mem_reverse.mp hc)⟩
      intro hn
      rw [List.reverse_eq_nil_iff] at hn
      exact h (by simp [hn])
  | cons c cs ih =>
    intro acc hacc w hw
    rw [splitWordsAux] at hw
    split at hw
    · split at hw
      · exact ih [] (by simp) w hw
      · next h =>
        rcases List.mem_cons.mp hw with rfl | hw
        · refine ⟨?_, fun x hx => hacc x (List.mem_reverse.mp hx)⟩
          intro hn
          rw [List.reverse_eq_nil_iff] at hn
          exact h (by simp [hn])
        · exact ih [] (by simp) w hw
    · next h =>
      refine ih (c :: acc) ?_ w hw
      intro x hx
      rcases List.mem_cons.mp hx with rfl | hx
      · simpa using h
      · exact hacc x hx

/-- Helper: every word of `pySplit s` is nonempty and whitespace-free. -/
theorem pySplit_words (s : String) :
    ∀ w ∈ pySplit s, w.data ≠ [] ∧ ∀ c ∈ w.data, isWs c = false := by
  intro w hw
  obtain ⟨l, hl, rfl⟩ := List.mem_map.mp hw
  exact splitWordsAux_words s.data [] (by simp) l hl

/-- Helper: joining a concatenation of two nonempty groups inserts exactly one
separating space. -/
theorem joinSpaceL_append :
    ∀ (a b : List (List Char)), a ≠ [] → b ≠ [] →
      joinSpaceL (a ++ b) = joinSpaceL a ++ ' ' :: joinSpaceL b
  | [], _, ha, _ => absurd rfl ha
  | [w], b, _, hb => by
    rw [List.singleton_append, joinSpaceL, joinSpaceL]
    simp [List.isEmpty_iff, hb]
  | w :: w' :: a, b, _, hb => by
    have ih := joinSpaceL_append (w' :: a) b (by simp) hb
    rw [List.cons_append, joinSpaceL, joinSpaceL]
    rw [if_neg (by simp), if_neg (by simp)]
    rw [ih]
    simp

/-- Helper: the first character of a space-join is the first character of the
first word, provided that word is nonempty. -/
theorem joinSpaceL_head (w : List Char) (rest : List (List Char)) (hw : w ≠ []) :
    (joinSpaceL (w :: rest)).head? = w.head? := by
  rw [joinSpaceL]
  split
  · rfl
  · cases w with
    | nil => exact absurd rfl hw
    | cons c t => rfl

/-- Helper: the last character of a space-join is the last character of the
last word, provided that word is nonempty. -/
theorem joinSpaceL_reverse_head :
    ∀ (L : List (List Char)) (w : List Char), w ≠ [] →
      ((joinSpaceL (L ++ [w])).reverse).head? = w.reverse.head?
  | [], w, _ => by
    rw [List.nil_append, joinSpaceL]
    simp
  | a :: L, w, hw => by
    have hne : (L ++ [w] : List (List Char)).isEmpty = false := by
      simp [List.isEmpty_iff]
    rw [List.cons_append, joinSpaceL, hne]
    simp only [Bool.false_eq_true, if_false, ite_false]
    rw [List.reverse_append, List.reverse_cons, List.append_assoc, List.head?_append,
      joinSpaceL_reverse_head L w hw]
    obtain ⟨c, t, hct⟩ : ∃ c t, w.reverse = c :: t := by
      cases hw2 : w.reverse with
      | nil => exact absurd (by simpa [List.reverse_eq_nil_iff] using hw2) hw
      | cons c t => exact ⟨c, t, rfl⟩
    rw [hct]
    rfl

/-- Helper: stripping is the identity on a list whose first and last
characters are not whitespace. -/
theorem pyStripL_eq_self (l : List Char)
    (hh : ∀ c, l.head? = some c → isWs c = false)
    (hl : ∀ c, l.reverse.head? = some c → isWs c = false) :
    pyStripL l = l := by
  cases l with
  | nil => rfl
  | cons c t =>
    have hc : isWs c = false := hh c rfl
    rw [pyStripL, List.dropWhile_cons, if_neg (by simp [hc])]
    cases hr : (c :: t).reverse with
    | nil => simp at hr
    | cons d r =>
      have hd : isWs d = false := hl d (by rw [hr]; rfl)
      rw [List.dropWhile_cons, if_neg (by simp [hd]), ← hr, List.reverse_reverse]

/-- Helper: stripping is the identity on a space-join of nonempty,
whitespace-free words. -/
theorem joinSpaceL_strip (chunkL : List (List Char)) (hne : chunkL ≠ [])
    (hws : ∀ w ∈ chunkL, w ≠ [] ∧ ∀ c ∈ w, isWs c = false) :
    pyStripL (joinSpaceL chunkL) = joinSpaceL chunkL := by
  apply pyStripL_eq_self
  · intro c hc
    cases chunkL with
    | nil => exact absurd rfl hne
    | cons w rest =>
      have hw := hws w (by simp)
      rw [joinSpaceL_head w rest hw.1] at hc
      cases w with
      | nil => exact absurd rfl hw.1
      | cons c0 t =>
        simp only [List.head?_cons, Option.some_inj] at hc
        subst hc
        exact hw.2 _ (by simp)
  · intro c hc
    rcases List.eq_nil_or_concat chunkL with rfl | ⟨L, w, rfl⟩
    · exact absurd rfl hne
    · rw [List.concat_eq_append] at hws hc
      have hw := hws w (by simp)
      rw [joinSpaceL_reverse_head L w hw.1] at hc
      have hcw : c ∈ w.reverse := by
        cases hr : w.reverse with
        | nil => rw [hr] at hc; simp at hc
        | cons d r =>
          rw [hr] at hc
          simp only [List.head?_cons, Option.some_inj] at hc
          subst hc
          simp
      exact hw.2 c (List.mem_reverse.mp hcw)

/-- Helper: `joinSpaceL` of a single word is that word. -/
theorem joinSpaceL_singleton (w : List Char) : joinSpaceL [w] = w := rfl

/-- Helper: the chunking loop of `split_long_segment` emits at least one
sub-segment and concatenates, word for word, back to the input word list.
Stated for an arbitrary sufficient fuel, chunk size `k ≥ 1`, and nonempty,
whitespace-free words. -/
theorem splitLoop_join :
    ∀ (fuel : ℕ) (ws : List String) (k : ℕ) (start segEnd maxDur : ℚ),
      1 ≤ k → ws ≠ [] → ws.length ≤ fuel →
      (∀ w ∈ ws, w.data ≠ [] ∧ ∀ c ∈ w.data, isWs c = false) →
      splitLoop segEnd maxDur k fuel start ws ≠ [] ∧
        joinSpaceL ((splitLoop segEnd maxDur k fuel start ws).map fun s => s.text.data) =
          joinSpaceL (ws.map String.data) := by
  intro fuel
  induction fuel with
  | zero =>
    intro ws k start segEnd maxDur hk hne hlen hws
    cases ws with
    | nil => exact absurd rfl hne
    | cons w ws => simp at hlen
  | succ fuel ih =>
    intro ws k start segEnd maxDur hk hne hlen hws
    cases ws with
    | nil => exact absurd rfl hne
    | cons w ws' =>
      cases k with
      | zero => omega
      | succ k' =>
        rw [splitLoop]
        have hchunk_props : ∀ l ∈ ((w :: ws').take (k' + 1)).map String.data,
            l ≠ [] ∧ ∀ c ∈ l, isWs c = false := by
          intro l hl
          obtain ⟨x, hx, rfl⟩ := List.mem_map.mp hl
          exact hws x (List.take_subset _ _ hx)
        have hmapne : ((w :: ws').take (k' + 1)).map String.data ≠ [] := by
          simp [List.take_succ_cons]
        have hstrip : pyStripL (joinSpaceL (((w :: ws').take (k' + 1)).map String.data)) =
            joinSpaceL (((w :: ws').take (k' + 1)).map String.data) :=
          joinSpaceL_strip _ hmapne hchunk_props
        by_cases hdropnil : (w :: ws').drop (k' + 1) = []
        · have hrec : splitLoop segEnd maxDur (k' + 1) fuel (min (start + maxDur) segEnd)
              ((w :: ws').drop (k' + 1)) = [] := by
            rw [hdropnil]
            cases fuel <;> rfl
          refine ⟨by simp, ?_⟩
          rw [hrec]
          have htake : (w :: ws').take (k' + 1) = w :: ws' :=
            List.take_of_length_le (List.drop_eq_nil_iff.mp hdropnil)
          simp only [List.map_cons, List.map_nil, joinSpaceL_singleton]
          show pyStripL (joinSpaceL (((w :: ws').take (k' + 1)).map String.data)) = _
          rw [hstrip, htake]
          simp
        · have hlen' : ((w :: ws').drop (k' + 1)).length ≤ fuel := by
            rw [List.length_drop, List.length_cons]
            rw [List.length_cons] at hlen
            omega
          obtain ⟨hne2, heq2⟩ := ih ((w :: ws').drop (k' + 1)) (k' + 1)
            (min (start + maxDur) segEnd) segEnd maxDur hk hdropnil hlen'
            (fun x hx => hws x (List.drop_subset _ _ hx))
          refine ⟨by simp, ?_⟩
          simp only [List.map_cons]
          rw [joinSpaceL, if_neg (by simpa [List.isEmpty_iff, List.map_eq_nil_iff] using hne2)]
          rw [heq2]
          show pyStripL (joinSpaceL (((w :: ws').take (k' + 1)).map String.data)) ++
            ' ' :: joinSpaceL (((w :: ws').drop (k' + 1)).map String.data) = _
          rw [hstrip, ← joinSpaceL_append _ _ hmapne
            (by simpa [List.map_eq_nil_iff] using hdropnil)]
          rw [← List.map_append, List.take_append_drop]
          simp

/-- C2: a segment longer than the fixed 15 s ceiling whose text contains at
least one word is split into at least one sub-segment, and joining the
sub-segments' texts with single spaces equals joining the original words with
single spaces. -/
theorem split_long_segment_preserves_words (seg : TranscriptSegment)
    (hdur : 15 < seg.duration) (hw : pySplit seg.text ≠ []) :
    1 ≤ (split_long_segment seg).length ∧
      joinSpace ((split_long_segment seg).map TranscriptSegment.text) =
        joinSpace (pySplit seg.text) := by
  have hsplit : split_long_segment seg =
      splitLoop seg.«end» 15
        (max (Int.toNat ⌊max (((pySplit seg.text).length : ℚ) /
          max seg.duration (1/1000000)) 1 * 15⌋) 1)
        (pySplit seg.text).length seg.start (pySplit seg.text) := by
    rw [split_long_segment, if_neg (not_le.mpr hdur),
      if_neg (by simpa [List.isEmpty_iff] using hw)]
  obtain ⟨hne, heq⟩ := splitLoop_join (pySplit seg.text).length (pySplit seg.text)
    (max (Int.toNat ⌊max (((pySplit seg.text).length : ℚ) /
      max seg.duration (1/1000000)) 1 * 15⌋) 1)
    seg.start seg.«end» 15 (le_max_right _ 1) hw (le_refl _) (pySplit_words seg.text)
  constructor
  · rw [hsplit]
    exact Nat.one_le_iff_ne_zero.mpr (by simpa [List.length_eq_zero] using hne)
  · rw [hsplit]
    show (⟨joinSpaceL (((splitLoop _ _ _ _ _ _).map TranscriptSegment.text).map
      String.data)⟩ : String) = ⟨joinSpaceL ((pySplit seg.text).map String.data)⟩
    rw [List.map_map]
    exact congrArg String.mk heq

/-- Concrete instance of `split_long_segment_preserves_words` on a 16 s
segment with text "a b": the words of the split are exactly the original
words. -/
theorem split_long_segment_preserves_words_witness :
    15 < (⟨0, 16, "a b"⟩ : TranscriptSegment).duration ∧
      pySplit "a b" ≠ [] ∧
      (1 ≤ (split_long_segment ⟨0, 16, "a b"⟩).length ∧
        joinSpace ((split_long_segment ⟨0, 16, "a b"⟩).map TranscriptSegment.text) =
          joinSpace (pySplit "a b")) ∧
      joinSpace (pySplit "a b") = "a b" :=
  ⟨by norm_num [TranscriptSegment.duration], by decide,
    split_long_segment_preserves_words ⟨0, 16, "a b"⟩
      (by norm_num [TranscriptSegment.duration]) (by decide), by decide⟩

/-- Helper: a flag that is not in the command is not found by the scan. -/
theorem findIdx?_flag_none (cmd : List String) (flag : String) (h : flag ∉ cmd) :
    cmd.findIdx? (fun x => x == flag) = none := by
  rw [List.findIdx?_eq_none_iff]
  intro x hx
  simp only [beq_eq_false_iff_ne, ne_eq]
  intro he
  exact h (he ▸ hx)

/-- Helper: on a command not containing the flag, `applyParam` appends the
flag/value pair. -/
theorem applyParam_of_not_mem (cmd : List String) (flag val : String) (h : flag ∉ cmd) :
    applyParam cmd flag val = cmd ++ [flag, val] := by
  rw [applyParam, findIdx?_flag_none cmd flag h]

/-- Helper: a prefix without the flag is transparent to `paramValue`. -/
theorem paramValue_append_of_not_mem (cmd : List String) (rest : List String)
    (flag : String) (h : flag ∉ cmd) :
    paramValue (cmd ++ rest) flag = paramValue rest flag := by
  induction cmd with
  | nil => rfl
  | cons c cmd ih =>
    have hc : (c == flag) = false := by
      simp only [beq_eq_false_iff_ne, ne_eq]
      intro he
      exact h (he ▸ List.mem_cons_self c cmd)
    have h' : flag ∉ cmd := fun hm => h (List.mem_cons_of_mem _ hm)
    rw [List.cons_append, paramValue, List.findIdx?_cons, hc]
    simp only [Bool.false_eq_true, if_false, ite_false]
    rw [List.findIdx?_succ]
    cases hfi : (cmd ++ rest).findIdx? (fun x => x == flag) with
    | none =>
      have : paramValue (cmd ++ rest) flag = none := by
        rw [paramValue, hfi]
      rw [← ih h', this]
      rfl
    | some i =>
      have : paramValue (cmd ++ rest) flag = (cmd ++ rest).get? (i + 1) := by
        rw [paramValue, hfi]
      rw [← ih h', this]
      rfl

/-- Helper: the decimal rendering of a number at most 64 is never one of the
two generation flags. -/
theorem toString_small_ne_flags :
    ∀ n : Fin 65, toString n.1 ≠ "--steps" ∧ toString n.1 ≠ "--max-new-tokens" := by
  decide

/-- Helper: `fallback_steps` as pure natural arithmetic. -/
theorem fallback_steps_eq (t : String) :
    fallback_steps t = max 6 (min 20 (3 * tts_text_len t / 10)) := by
  rw [fallback_steps]
  have h : (3 : ℚ)/10 * (tts_text_len t : ℚ) =
      ((3 * tts_text_len t : ℕ) : ℚ) / ((10 : ℕ) : ℚ) := by
    push_cast
    ring
  rw [h, Rat.floor_natCast_div_natCast, ← Int.natCast_div, Int.toNat_natCast]

/-- Helper: `fallback_tokens` as pure natural arithmetic. -/
theorem fallback_tokens_eq (t : String) :
    fallback_tokens t = max 16 (min 64 (tts_text_len t / 2)) := by
  rw [fallback_tokens]
  have h : (1 : ℚ)/2 * (tts_text_len t : ℚ) =
      ((tts_text_len t : ℕ) : ℚ) / ((2 : ℕ) : ℚ) := by
    push_cast
    ring
  rw [h, Rat.floor_natCast_div_natCast, ← Int.natCast_div, Int.toNat_natCast]

/-- Helper: the reduced step count is clamped to the range 6–20. -/
theorem fallback_steps_bounds (t : String) :
    6 ≤ fallback_steps t ∧ fallback_steps t ≤ 20 :=
  ⟨le_max_left _ _, max_le (by norm_num) (min_le_left _ _)⟩

/-- Helper: the reduced token budget is clamped to the range 16–64. -/
theorem fallback_tokens_bounds (t : String) :
    16 ≤ fallback_tokens t ∧ fallback_tokens t ≤ 64 :=
  ⟨le_max_left _ _, max_le (by norm_num) (min_le_left _ _)⟩

/-- Helper: a digit string (as produced by `CHATTERBOX_STEPS` /
`CHATTERBOX_MAX_NEW_TOKENS` validation) is never one of the two flag
strings. -/
theorem pyIsDigit_ne_flags (s : String) (h : pyIsDigit s = true) :
    s ≠ "--steps" ∧ s ≠ "--max-new-tokens" := by
  constructor <;> intro he <;> subst he <;> revert h <;> decide

/-- Helper: the steps option is either absent or a flag/digit-value pair. -/
theorem stepsOpt_cases (a : ChatterboxArgs) :
    stepsOpt a = [] ∨ ∃ sv, stepsOpt a = ["--steps", sv] ∧ pyIsDigit sv = true := by
  rw [stepsOpt]
  cases a.steps_env with
  | none => exact Or.inl rfl
  | some s =>
    by_cases h : pyIsDigit s = true
    · exact Or.inr ⟨s, by simp [h], h⟩
    · exact Or.inl (by simp [h])

/-- Helper: the token option is either absent or a flag/digit-value pair. -/
theorem tokensOpt_cases (a : ChatterboxArgs) :
    tokensOpt a = [] ∨
      ∃ tv, tokensOpt a = ["--max-new-tokens", tv] ∧ pyIsDigit tv = true := by
  rw [tokensOpt]
  cases a.max_new_tokens_env with
  | none => exact Or.inl rfl
  | some s =>
    by_cases h : pyIsDigit s = true
    · exact Or.inr ⟨s, by simp [h], h⟩
    · exact Or.inl (by simp [h])

/-- Helper: the scan finds the flag right after a flag-free prefix. -/
theorem findIdx?_append_flag :
    ∀ (pre rest : List String) (flag : String), flag ∉ pre →
      (pre ++ flag :: rest).findIdx? (fun x => x == flag) = some pre.length
  | [], rest, flag, _ => by simp [List.findIdx?_cons]
  | c :: pre, rest, flag, h => by
    have hc : (c == flag) = false := by
      simp only [beq_eq_false_iff_ne, ne_eq]
      intro he
      exact h (he ▸ List.mem_cons_self c pre)
    have h' : flag ∉ pre := fun hm => h (List.mem_cons_of_mem _ hm)
    rw [List.cons_append, List.findIdx?_cons, hc]
    simp only [Bool.false_eq_true, if_false, ite_false]
    rw [List.findIdx?_succ, findIdx?_append_flag pre rest flag h']
    rfl

/-- Helper: overwriting the slot after a flag sitting past a flag-free
prefix. -/
theorem set_append_flag_val :
    ∀ (pre : List String) (flag v val : String) (rest : List String),
      (pre ++ flag :: v :: rest).set (pre.length + 1) val = pre ++ flag :: val :: rest
  | [], _, _, _, _ => rfl
  | c :: pre, flag, v, val, rest => by
    rw [List.cons_append]
    show (c :: (pre ++ flag :: v :: rest)).set (pre.length + 1 + 1) val = _
    rw [List.set_cons_succ, set_append_flag_val pre flag v val rest, List.cons_append]

/-- Helper: when the flag occurs as a genuine flag (first occurrence followed
by a value slot), `applyParam` replaces exactly that value in place. -/
theorem applyParam_proper (pre : List String) (flag v val : String)
    (rest : List String) (h : flag ∉ pre) :
    applyParam (pre ++ flag :: v :: rest) flag val = pre ++ flag :: val :: rest := by
  rw [applyParam, findIdx?_append_flag pre (v :: rest) flag h]
  show (if pre.length + 1 < (pre ++ flag :: v :: rest).length
    then (pre ++ flag :: v :: rest).set (pre.length + 1) val
    else pre ++ flag :: v :: rest) = _
  rw [if_pos (by simp only [List.length_append, List.length_cons]; omega)]
  exact set_append_flag_val pre flag v val rest

/-- Helper: the value read for a flag standing at the head of the list. -/
theorem paramValue_flag_cons (flag v : String) (rest : List String) :
    paramValue (flag :: v :: rest) flag = some v := by
  rw [paramValue, List.findIdx?_cons]
  simp

/-- Helper: a single non-flag element is transparent to `paramValue`. -/
theorem paramValue_cons_of_ne (c : String) (l : List String) (flag : String)
    (h : c ≠ flag) : paramValue (c :: l) flag = paramValue l flag :=
  paramValue_append_of_not_mem [c] l flag (by simp [Ne.symm h])

/-- Helper: whenever the two generation flags do not occur among the fixed
argv values (head options, attention option, trailing options), the retried
command associates both flags with the reduced values — appended when the
flag was absent, replaced in place when the corresponding environment
override had put the flag/value pair in the command. -/
theorem retryCmd_paramValues (a : ChatterboxArgs)
    (hs1 : "--steps" ∉ cmdHead a) (hs2 : "--steps" ∉ attnOpt a)
    (hs3 : "--steps" ∉ tailOpt a)
    (ht1 : "--max-new-tokens" ∉ cmdHead a) (ht2 : "--max-new-tokens" ∉ attnOpt a)
    (ht3 : "--max-new-tokens" ∉ tailOpt a) :
    paramValue (retryCmd a) "--steps" = some (toString (fallback_steps a.text)) ∧
      paramValue (retryCmd a) "--max-new-tokens" =
        some (toString (fallback_tokens a.text)) := by
  have hST : ("--steps" : String) ≠ "--max-new-tokens" := by decide
  have hTS : ("--max-new-tokens" : String) ≠ "--steps" := by decide
  have hvsf := toString_small_ne_flags ⟨fallback_steps a.text,
    by have := (fallback_steps_bounds a.text).2; omega⟩
  have hvtf := toString_small_ne_flags ⟨fallback_tokens a.text,
    by have := (fallback_tokens_bounds a.text).2; omega⟩
  have hvs1 : toString (fallback_steps a.text) ≠ "--steps" := hvsf.1
  have hvs2 : toString (fallback_steps a.text) ≠ "--max-new-tokens" := hvsf.2
  have hvt1 : toString (fallback_tokens a.text) ≠ "--steps" := hvtf.1
  rcases stepsOpt_cases a with hS | ⟨sv, hS, hsvd⟩ <;>
    rcases tokensOpt_cases a with hT | ⟨tv, hT, htvd⟩
  · -- both options absent: both pairs are appended
    have hsmem : "--steps" ∉ chatterboxCmd a := by
      rw [chatterboxCmd, hS, hT]
      simp [hs1, hs2, hs3]
    have h1 : applyParam (chatterboxCmd a) "--steps" (toString (fallback_steps a.text)) =
        chatterboxCmd a ++ ["--steps", toString (fallback_steps a.text)] :=
      applyParam_of_not_mem _ _ _ hsmem
    have htmem0 : "--max-new-tokens" ∉ chatterboxCmd a := by
      rw [chatterboxCmd, hS, hT]
      simp [ht1, ht2, ht3]
    have htmem : "--max-new-tokens" ∉
        chatterboxCmd a ++ ["--steps", toString (fallback_steps a.text)] := by
      rw [chatterboxCmd, hS, hT]
      simp [ht1, ht2, ht3, hTS, Ne.symm hvs2]
    have h2 : retryCmd a = (chatterboxCmd a ++ ["--steps", toString (fallback_steps a.text)])
        ++ ["--max-new-tokens", toString (fallback_tokens a.text)] := by
      rw [retryCmd, h1, applyParam_of_not_mem _ _ _ htmem]
    constructor
    · rw [h2, List.append_assoc, paramValue_append_of_not_mem _ _ _ hsmem]
      exact paramValue_flag_cons _ _ _
    · rw [h2, List.append_assoc, paramValue_append_of_not_mem _ _ _ htmem0]
      show paramValue ("--steps" :: toString (fallback_steps a.text) ::
        ["--max-new-tokens", toString (fallback_tokens a.text)]) "--max-new-tokens" = _
      rw [paramValue_cons_of_ne _ _ _ hST, paramValue_cons_of_ne _ _ _ hvs2]
      exact paramValue_flag_cons _ _ _
  · -- steps absent, tokens present: steps appended, tokens replaced in place
    have htv := pyIsDigit_ne_flags tv htvd
    have hcmd : chatterboxCmd a =
        (cmdHead a ++ attnOpt a) ++ "--max-new-tokens" :: tv :: tailOpt a := by
      rw [chatterboxCmd, hS, hT]
      simp
    have hsmem : "--steps" ∉ chatterboxCmd a := by
      rw [hcmd]
      simp [hs1, hs2, hs3, hST, Ne.symm htv.1]
    have h1 : applyParam (chatterboxCmd a) "--steps" (toString (fallback_steps a.text)) =
        chatterboxCmd a ++ ["--steps", toString (fallback_steps a.text)] :=
      applyParam_of_not_mem _ _ _ hsmem
    have hshape : chatterboxCmd a ++ ["--steps", toString (fallback_steps a.text)] =
        (cmdHead a ++ attnOpt a) ++ "--max-new-tokens" :: tv ::
          (tailOpt a ++ ["--steps", toString (fallback_steps a.text)]) := by
      rw [hcmd]
      simp
    have h2 : retryCmd a = (cmdHead a ++ attnOpt a) ++ "--max-new-tokens" ::
        toString (fallback_tokens a.text) ::
          (tailOpt a ++ ["--steps", toString (fallback_steps a.text)]) := by
      rw [retryCmd, h1, hshape]
      exact applyParam_proper _ _ tv _ _ (by simp [ht1, ht2])
    constructor
    · rw [h2, List.append_assoc,
        paramValue_append_of_not_mem _ _ _ hs1,
        paramValue_append_of_not_mem _ _ _ hs2,
        paramValue_cons_of_ne _ _ _ hTS, paramValue_cons_of_ne _ _ _ hvt1,
        paramValue_append_of_not_mem _ _ _ hs3]
      exact paramValue_flag_cons _ _ _
    · rw [h2, List.append_assoc,
        paramValue_append_of_not_mem _ _ _ ht1,
        paramValue_append_of_not_mem _ _ _ ht2]
      exact paramValue_flag_cons _ _ _
  · -- steps present, tokens absent: steps replaced in place, tokens appended
    have hsv := pyIsDigit_ne_flags sv hsvd
    have hcmd : chatterboxCmd a =
        cmdHead a ++ "--steps" :: sv :: (attnOpt a ++ tailOpt a) := by
      rw [chatterboxCmd, hS, hT]
      simp
    have h1 : applyParam (chatterboxCmd a) "--steps" (toString (fallback_steps a.text)) =
        cmdHead a ++ "--steps" :: toString (fallback_steps a.text) ::
          (attnOpt a ++ tailOpt a) := by
      rw [hcmd]
      exact applyParam_proper _ _ sv _ _ hs1
    have htmem : "--max-new-tokens" ∉ cmdHead a ++ "--steps" ::
        toString (fallback_steps a.text) :: (attnOpt a ++ tailOpt a) := by
      simp [ht1, ht2, ht3, hTS, Ne.symm hvs2]
    have h2 : retryCmd a = (cmdHead a ++ "--steps" :: toString (fallback_steps a.text) ::
        (attnOpt a ++ tailOpt a)) ++
          ["--max-new-tokens", toString (fallback_tokens a.text)] := by
      rw [retryCmd, h1, applyParam_of_not_mem _ _ _ htmem]
    constructor
    · rw [h2, List.append_assoc, paramValue_append_of_not_mem _ _ _ hs1]
      exact paramValue_flag_cons _ _ _
    · rw [h2, List.append_assoc, paramValue_append_of_not_mem _ _ _ ht1]
      show paramValue ("--steps" :: toString (fallback_steps a.text) ::
        ((attnOpt a ++ tailOpt a) ++
          ["--max-new-tokens", toString (fallback_tokens a.text)])) "--max-new-tokens" = _
      rw [paramValue_cons_of_ne _ _ _ hST, paramValue_cons_of_ne _ _ _ hvs2,
        paramValue_append_of_not_mem _ _ _ (by simp [ht2, ht3])]
      exact paramValue_flag_cons _ _ _
  · -- both present: both values replaced in place
    have hsv := pyIsDigit_ne_flags sv hsvd
    have hcmd : chatterboxCmd a = cmdHead a ++ "--steps" :: sv ::
        (attnOpt a ++ "--max-new-tokens" :: tv :: tailOpt a) := by
      rw [chatterboxCmd, hS, hT]
      simp
    have h1 : applyParam (chatterboxCmd a) "--steps" (toString (fallback_steps a.text)) =
        cmdHead a ++ "--steps" :: toString (fallback_steps a.text) ::
          (attnOpt a ++ "--max-new-tokens" :: tv :: tailOpt a) := by
      rw [hcmd]
      exact applyParam_proper _ _ sv _ _ hs1
    have hshape : cmdHead a ++ "--steps" :: toString (fallback_steps a.text) ::
        (attnOpt a ++ "--max-new-tokens" :: tv :: tailOpt a) =
        (cmdHead a ++ "--steps" :: toString (fallback_steps a.text) :: attnOpt a) ++
          "--max-new-tokens" :: tv :: tailOpt a := by
      simp
    have h2 : retryCmd a = (cmdHead a ++ "--steps" :: toString (fallback_steps a.text) ::
        attnOpt a) ++ "--max-new-tokens" :: toString (fallback_tokens a.text) ::
          tailOpt a := by
      rw [retryCmd, h1, hshape]
      exact applyParam_proper _ _ tv _ _ (by simp [ht1, ht2, hTS, Ne.symm hvs2])
    constructor
    · rw [h2]
      rw [show (cmdHead a ++ "--steps" :: toString (fallback_steps a.text) :: attnOpt a) ++
          "--max-new-tokens" :: toString (fallback_tokens a.text) :: tailOpt a =
        cmdHead a ++ "--steps" :: toString (fallback_steps a.text) ::
          (attnOpt a ++ "--max-new-tokens" :: toString (fallback_tokens a.text) ::
            tailOpt a) by simp]
      rw [paramValue_append_of_not_mem _ _ _ hs1]
      exact paramValue_flag_cons _ _ _
    · rw [h2, paramValue_append_of_not_mem _ _ _ (by simp [ht1, ht2, hTS, Ne.symm hvs2])]
      exact paramValue_flag_cons _ _ _

/-- C1 (amended): a first-attempt timeout triggers exactly one retry, never
more than two subprocess attempts (for any oracle), with a `PipelineError` on
a second timeout and, at the segment level, a tone substituted exactly when
fallback is permitted — all with no hypothesis beyond the first timeout.  The
reduced values are always clamped to 6–20 steps and 16–64 tokens.  Whenever
the two flag strings do not occur among the fixed argv values, the retry
command associates `--steps` and `--max-new-tokens` with the reduced values —
replaced in place when the `CHATTERBOX_STEPS` / `CHATTERBOX_MAX_NEW_TOKENS`
environment overrides had put the flags in the command, appended when the
flags were absent. -/
theorem chatterbox_timeout_single_retry (a : ChatterboxArgs)
    (run : List String → ℕ → RunOutcome)
    (h1 : run (chatterboxCmd a) (chatterboxTimeout a) = .timeout) :
    (∀ run' : List String → ℕ → RunOutcome, (chatterbox_tts a run').attempts.length ≤ 2) ∧
      (chatterbox_tts a run).attempts = [chatterboxCmd a, retryCmd a] ∧
      (6 ≤ fallback_steps a.text ∧ fallback_steps a.text ≤ 20) ∧
      (16 ≤ fallback_tokens a.text ∧ fallback_tokens a.text ≤ 64) ∧
      (run (retryCmd a) (max 90 (chatterboxTimeout a / 2)) = .timeout →
        (chatterbox_tts a run).outcome =
          .error ("Chatterbox CLI timed out: initial=" ++ toString (chatterboxTimeout a)
            ++ "s, fallback=" ++ toString (max 90 (chatterboxTimeout a / 2)) ++ "s")) ∧
      (∀ e, segmentSynthesis true (.error e) (.ok ()) = .ok SegmentAudio.tone) ∧
      ("--steps" ∉ cmdHead a → "--steps" ∉ attnOpt a → "--steps" ∉ tailOpt a →
        "--max-new-tokens" ∉ cmdHead a → "--max-new-tokens" ∉ attnOpt a →
        "--max-new-tokens" ∉ tailOpt a →
        paramValue (retryCmd a) "--steps" = some (toString (fallback_steps a.text)) ∧
          paramValue (retryCmd a) "--max-new-tokens" =
            some (toString (fallback_tokens a.text))) ∧
      ("--steps" ∉ chatterboxCmd a → "--max-new-tokens" ∉ chatterboxCmd a →
        retryCmd a = chatterboxCmd a ++
          ["--steps", toString (fallback_steps a.text),
           "--max-new-tokens", toString (fallback_tokens a.text)]) := by
  refine ⟨?_, ?_, fallback_steps_bounds a.text, fallback_tokens_bounds a.text, ?_,
    fun e => rfl, ?_, ?_⟩
  · intro run'
    rw [chatterbox_tts]
    cases hx : run' (chatterboxCmd a) (chatterboxTimeout a) with
    | done rc meta => simp
    | timeout =>
      cases hy : run' (retryCmd a) (max 90 (chatterboxTimeout a / 2)) with
      | done rc meta => simp
      | timeout => simp
  · rw [chatterbox_tts, h1]
    cases hy : run (retryCmd a) (max 90 (chatterboxTimeout a / 2)) <;> simp
  · intro h2
    rw [chatterbox_tts, h1, h2]
  · intro hc1 hc2 hc3 hc4 hc5 hc6
    exact retryCmd_paramValues a hc1 hc2 hc3 hc4 hc5 hc6
  · intro hs ht
    have hvs : toString (fallback_steps a.text) ≠ "--max-new-tokens" :=
      (toString_small_ne_flags ⟨fallback_steps a.text,
        by have := (fallback_steps_bounds a.text).2; omega⟩).2
    rw [retryCmd, applyParam_of_not_mem _ _ _ hs, applyParam_of_not_mem]
    · rw [List.append_assoc]
      rfl
    · intro hmem
      rcases List.mem_append.mp hmem with hm | hm
      · exact ht hm
      · rcases List.mem_cons.mp hm with he | hm
        · exact absurd he.symm (by decide)
        · rcases List.mem_cons.mp hm with he | hm
          · exact hvs he.symm
          · simp at hm

/-- C1 counterexample: when an argument *value* equals the literal flag string
(here `device = "--steps"`), the first occurrence the rewrite finds is that
value; with it sitting in the final position nothing is replaced, so the
retried command carries no reduced step count — `--steps` is (spuriously)
followed by `--max-new-tokens` instead of the reduced value `6`.  The retry
itself still happens (two attempts). -/
theorem chatterbox_retry_params_counterexample :
    (chatterbox_tts
        { text := "a", output_path := "o", audio_prompt := "p", device := "--steps" }
        (fun _ _ => .timeout)).attempts.length = 2 ∧
      paramValue
        ((chatterbox_tts
          { text := "a", output_path := "o", audio_prompt := "p", device := "--steps" }
          (fun _ _ => .timeout)).attempts.getD 1 []) "--steps"
        = some "--max-new-tokens" ∧
      toString (fallback_steps "a") = "6" ∧
      paramValue
        ((chatterbox_tts
          { text := "a", output_path := "o", audio_prompt := "p", device := "--steps" }
          (fun _ _ => .timeout)).attempts.getD 1 []) "--steps"
        ≠ some (toString (fallback_steps "a")) := by
  have hs6 : fallback_steps "a" = 6 := by
    rw [fallback_steps_eq]
    decide
  refine ⟨rfl, by decide, by rw [hs6]; rfl, ?_⟩
  rw [hs6]
  decide

/-- Concrete instance of `chatterbox_timeout_single_retry`, in the
environment-override configuration: `CHATTERBOX_STEPS=50` and
`CHATTERBOX_MAX_NEW_TOKENS=64` put both flags in the command, the subprocess
always times out, exactly the original command and the retry are attempted,
and the retry carries the reduced values (in place of `50` and `64`). -/
theorem chatterbox_timeout_single_retry_witness :
    (chatterbox_tts
        { text := "hello world", output_path := "o.wav", audio_prompt := "p.wav", steps_env := some "50", max_new_tokens_env := some "64" }
        (fun _ _ => .timeout)).attempts =
      [chatterboxCmd { text := "hello world", output_path := "o.wav", audio_prompt := "p.wav", steps_env := some "50", max_new_tokens_env := some "64" },
       retryCmd { text := "hello world", output_path := "o.wav", audio_prompt := "p.wav", steps_env := some "50", max_new_tokens_env := some "64" }] ∧
      "--steps" ∈ chatterboxCmd { text := "hello world", output_path := "o.wav", audio_prompt := "p.wav", steps_env := some "50", max_new_tokens_env := some "64" } ∧
      paramValue (retryCmd { text := "hello world", output_path := "o.wav", audio_prompt := "p.wav", steps_env := some "50", max_new_tokens_env := some "64" })
        "--steps" = some (toString (fallback_steps "hello world")) ∧
      paramValue (retryCmd { text := "hello world", output_path := "o.wav", audio_prompt := "p.wav", steps_env := some "50", max_new_tokens_env := some "64" })
        "--max-new-tokens" = some (toString (fallback_tokens "hello world")) ∧
      toString (fallback_steps "hello world") = "6" := by
  have h := chatterbox_timeout_single_retry
    { text := "hello world", output_path := "o.wav", audio_prompt := "p.wav", steps_env := some "50", max_new_tokens_env := some "64" }
    (fun _ _ => .timeout) rfl
  have hp := h.2.2.2.2.2.2.1 (by decide) (by decide) (by decide) (by decide)
    (by decide) (by decide)
  exact ⟨h.2.1, by decide, hp.1, hp.2, by rw [fallback_steps_eq]; decide⟩
